import Mathlib

/-!
Verification of the agentic-tenancy multi-tenant lifecycle controller.

This file gives a shallow embedding, in Lean 4, of the coordination layer of
the repository: the tenant registry (internal/registry), the wake pipeline
(internal/api/handler.go, wakeOrGet / pollUntilRunning / Wake / CreateTenant),
the idle-timeout controller (internal/lifecycle, checkIdleTenants), the drift
reconciler (internal/reconciler) and the warm-pod claim operation
(internal/k8s/client.go, GetWarmPod).  Timestamps are modelled as integers
(seconds), durations as integers, and the surrounding I/O (Redis, DynamoDB,
the Kubernetes API server) as explicit state or as environment parameters
recording the outcome each call would have produced.  Side effects are
reified as an action trace so that statements about "which writes the system
performs" are statements about lists.
-/

namespace AgenticTenancy

/-- Tenant lifecycle status, from internal/registry/registry.go. -/
inductive TenantStatus where
  | provisioning
  | running
  | idle
  | terminated
deriving DecidableEq, Repr

/-- A tenant record, from the TenantRecord struct in
internal/registry/registry.go.  `ns` is the Go field `Namespace` (a Lean
keyword), `s3Path` is `S3Prefix`, timestamps are seconds as integers. -/
structure TenantRecord where
  tenantID : String
  status : TenantStatus
  podName : String := ""
  podIP : String := ""
  ns : String := ""
  s3Path : String := ""
  botToken : String := ""
  createdAt : Int := 0
  lastActiveAt : Int := 0
  idleTimeoutS : Int := 0
deriving DecidableEq, Repr

/-- The registry table: the set of tenant records, in scan order. -/
abbrev Registry := List TenantRecord

/-- Point read (registry.GetTenant): the record with the given id, if any. -/
def getTenant (reg : Registry) (tenantID : String) : Option TenantRecord :=
  List.find? (fun r => r.tenantID = tenantID) reg

/-- Filtered scan (registry.ListByStatus). -/
def listByStatus (status : TenantStatus) (reg : Registry) : List TenantRecord :=
  List.filter (fun r => r.status = status) reg

/-- Coarse idle scan (registry.ListIdleTenants): running records whose
last_active_at is strictly before now − olderThan. -/
def listIdleTenants (reg : Registry) (olderThanS : Int) (now : Int) : List TenantRecord :=
  List.filter (fun r => r.status = TenantStatus.running ∧ r.lastActiveAt < now - olderThanS) reg

/-- Registry ids are pairwise distinct (invariant I2 of the spec; DynamoDB
enforces it through the `tenant_id` partition key). -/
def UniqueIds (reg : Registry) : Prop :=
  List.Pairwise (fun a b => a.tenantID ≠ b.tenantID) (reg : List TenantRecord)

/-- Invariant I1 (address coupling) on one record: a Running record carries a
pod name and address, an Idle or Terminated record carries neither. -/
def recordCoupled (r : TenantRecord) : Prop :=
  (r.status = TenantStatus.running → r.podName ≠ "" ∧ r.podIP ≠ "") ∧
  ((r.status = TenantStatus.idle ∨ r.status = TenantStatus.terminated) →
    r.podName = "" ∧ r.podIP = "")

instance (r : TenantRecord) : Decidable (recordCoupled r) := by
  unfold recordCoupled; infer_instance

/-- Invariant I1 over the whole registry. -/
def allCoupled (reg : Registry) : Prop :=
  ∀ r ∈ (reg : List TenantRecord), recordCoupled r

/-! ## Side effects as an action trace

Every externally visible operation of the controller (registry writes, lock
operations, pod and volume CRUD, cache invalidation) is recorded as an
`Action`.  Registry-reading operations are modelled directly as pure reads. -/

/-- One side effect performed by the controller. -/
inductive Action where
  | acquireLock (tenantID : String) (ttlS : Nat)
  | releaseLock (tenantID : String)
  | createRecord (rec : TenantRecord)
  | updStatus (tenantID : String) (status : TenantStatus) (podName podIP : String)
  | touchActivity (tenantID : String)
  | deleteRecord (tenantID : String)
  | createPVC (tenantID ns : String)
  | createPod (tenantID ns nodeName : String)
  | deletePod (name ns : String) (graceS : Int)
  | delCacheKey (key : String)
deriving DecidableEq, Repr

/-- Effect of one action on the registry.  `createRecord` is conditional on
absence (registry.CreateTenant, ConditionExpression attribute_not_exists);
`updStatus` merges status, pod_name, pod_ip and stamps last_active_at = now
(registry.UpdateStatus); non-registry actions leave the registry unchanged. -/
def applyRegAction (now : Int) (reg : Registry) : Action → Registry
  | Action.createRecord rec =>
      if reg.any (fun r => r.tenantID = rec.tenantID) then reg else reg ++ [rec]
  | Action.updStatus tenantID status podName podIP =>
      reg.map (fun r =>
        if r.tenantID = tenantID then
          { r with status := status, podName := podName, podIP := podIP,
                   lastActiveAt := now }
        else r)
  | Action.touchActivity tenantID =>
      reg.map (fun r =>
        if r.tenantID = tenantID then { r with lastActiveAt := now } else r)
  | Action.deleteRecord tenantID =>
      reg.filter (fun r => r.tenantID ≠ tenantID)
  | _ => reg

/-- Effect of a trace on the registry, in order. -/
def applyActions (now : Int) (acts : List Action) (reg : Registry) : Registry :=
  acts.foldl (applyRegAction now) reg

/-- A write is I1-compatible when the record it stores (or the
status/pod-name/pod-address triple it merges) satisfies the address
coupling.  Non-write actions are trivially compatible. -/
def regWriteOK : Action → Prop
  | Action.createRecord rec => recordCoupled rec
  | Action.updStatus _ status podName podIP =>
      (status = TenantStatus.running → podName ≠ "" ∧ podIP ≠ "") ∧
      ((status = TenantStatus.idle ∨ status = TenantStatus.terminated) →
        podName = "" ∧ podIP = "")
  | _ => True

instance (a : Action) : Decidable (regWriteOK a) := by
  unfold regWriteOK; cases a <;> infer_instance

/-- An I1-compatible write preserves I1. -/
theorem applyRegAction_coupled {reg : Registry} {a : Action} (now : Int)
    (hreg : allCoupled reg) (ha : regWriteOK a) :
    allCoupled (applyRegAction now reg a) := by
  cases a with
  | createRecord rec =>
      simp only [applyRegAction]
      split
      · exact hreg
      · intro r hr
        rcases List.mem_append.mp hr with h | h
        · exact hreg r h
        · simp only [List.mem_singleton] at h
          subst h; exact ha
  | updStatus tenantID status podName podIP =>
      intro r hr
      rcases List.mem_map.mp hr with ⟨s, hs, rfl⟩
      by_cases h : s.tenantID = tenantID
      · simp only [h, if_pos rfl]
        exact ⟨fun hst => (ha.1 hst), fun hst => (ha.2 hst)⟩
      · simp only [if_neg h]
        exact hreg s hs
  | touchActivity tenantID =>
      intro r hr
      rcases List.mem_map.mp hr with ⟨s, hs, rfl⟩
      by_cases h : s.tenantID = tenantID
      · simp only [if_pos h]
        exact hreg s hs
      · simp only [if_neg h]
        exact hreg s hs
  | deleteRecord tenantID =>
      intro r hr
      exact hreg r (List.mem_of_mem_filter hr)
  | acquireLock tenantID ttlS => exact hreg
  | releaseLock tenantID => exact hreg
  | createPVC tenantID ns => exact hreg
  | createPod tenantID ns nodeName => exact hreg
  | deletePod name ns graceS => exact hreg
  | delCacheKey key => exact hreg

/-- A trace of I1-compatible writes preserves I1. -/
theorem applyActions_coupled {acts : List Action} (now : Int) :
    ∀ {reg : Registry}, allCoupled reg → (∀ a ∈ acts, regWriteOK a) →
      allCoupled (applyActions now acts reg) := by
  induction acts with
  | nil => intro reg h _; exact h
  | cons a rest ih =>
      intro reg hreg hok
      have h1 : allCoupled (applyRegAction now reg a) :=
        applyRegAction_coupled now hreg (hok a (List.mem_cons_self a rest))
      exact ih h1 (fun b hb => hok b (List.mem_cons_of_mem a hb))

/-! ## Kubernetes objects and the orchestration client (internal/k8s/client.go) -/

/-- Pod phase (corev1.PodPhase, the cases the code inspects). -/
inductive PodPhase where
  | pending
  | running
  | succeeded
  | failed
deriving DecidableEq, Repr

/-- A pod as the client observes it: name, namespace, label map, phase,
network address, deletion timestamp (set iff terminating) and scheduled
node. -/
structure Pod where
  name : String
  ns : String
  labels : List (String × String)
  phase : PodPhase
  podIP : String
  deletionTimestamp : Option Int := none
  nodeName : String := ""
deriving DecidableEq, Repr

/-- Label lookup in a pod's label map. -/
def getLabel (p : Pod) (key : String) : Option String :=
  (p.labels.find? (fun kv => kv.1 = key)).map (fun kv => kv.2)

/-- Label assignment (`pod.Labels[key] = v`): replaces the value when the key
is present, appends it otherwise. -/
def setLabel (p : Pod) (key v : String) : Pod :=
  { p with labels :=
      if p.labels.any (fun kv => kv.1 = key) then
        p.labels.map (fun kv => if kv.1 = key then (kv.1, v) else kv)
      else p.labels ++ [(key, v)] }

/-- Derived pod name (invariant I4): podName in internal/k8s/client.go. -/
def podNameOf (tenantID : String) : String := "zeroclaw-" ++ tenantID

/-- Derived PVC name: PVCName in internal/k8s/client.go. -/
def pvcNameOf (tenantID : String) : String := "pvc-tenant-" ++ tenantID

/-- The pod object CreateTenantPod submits for a tenant (the fields this
development reasons about; the name is the derived name, the node name is the
warm-pool hint). -/
def createTenantPod (tenantID ns nodeName : String) : Pod :=
  { name := podNameOf tenantID
    ns := ns
    labels := [("app", "zeroclaw"), ("tenant", tenantID)]
    phase := PodPhase.pending
    podIP := ""
    deletionTimestamp := none
    nodeName := nodeName }

/-- The server-side list selector `app=warm-pool,warm=true` used by
GetWarmPod. -/
def warmSelector (p : Pod) : Prop :=
  getLabel p "app" = some "warm-pool" ∧ getLabel p "warm" = some "true"

instance (p : Pod) : Decidable (warmSelector p) := by
  unfold warmSelector; infer_instance

/-- The in-loop skip test of GetWarmPod, inverted: a candidate pod is
Running, has an address, and is not terminating. -/
def warmCandidate (p : Pod) : Prop :=
  p.phase = PodPhase.running ∧ p.podIP ≠ "" ∧ p.deletionTimestamp = none

instance (p : Pod) : Decidable (warmCandidate p) := by
  unfold warmCandidate; infer_instance

/-- The loop body of GetWarmPod over the listed pods.  `updateOk p` is the
outcome of the conditional (resource-version guarded) label update on `p`:
false means another orchestrator replica claimed the pod first. -/
def getWarmPodGo (updateOk : Pod → Bool) : List Pod → Option Pod
  | [] => none
  | p :: rest =>
      if ¬ warmCandidate p then getWarmPodGo updateOk rest
      else if updateOk p then some (setLabel p "warm" "consuming")
      else getWarmPodGo updateOk rest

/-- GetWarmPod (internal/k8s/client.go): list pods matching the warm-pool
selector, walk them in order, skip non-candidates, attempt the conditional
relabel warm=true → warm=consuming, return the first success. -/
def getWarmPod (pods : List Pod) (updateOk : Pod → Bool) : Option Pod :=
  getWarmPodGo updateOk (pods.filter (fun p => warmSelector p))

/-- WaitPodReady (internal/k8s/client.go): poll the pod; each element of
`obs` is one 2-second observation inside the timeout budget (`none` when the
Get failed); return the address at the first observation that is Running
with a non-empty address, and time out when the budget is exhausted. -/
def waitPodReady (obs : List (Option Pod)) : Option String :=
  match obs with
  | [] => none
  | o :: rest =>
      match o with
      | some pod =>
          if pod.phase = PodPhase.running ∧ pod.podIP ≠ "" then some pod.podIP
          else waitPodReady rest
      | none => waitPodReady rest

/-- WaitPodReady only ever returns the non-empty address of a pod it
observed Running. -/
theorem waitPodReady_ne_empty {obs : List (Option Pod)} {ip : String}
    (h : waitPodReady obs = some ip) : ip ≠ "" := by
  induction obs with
  | nil => simp [waitPodReady] at h
  | cons o rest ih =>
      cases o with
      | none => exact ih (by simpa [waitPodReady] using h)
      | some pod =>
          by_cases hc : pod.phase = PodPhase.running ∧ pod.podIP ≠ ""
          · simp only [waitPodReady, if_pos hc] at h
            cases h; exact hc.2
          · exact ih (by simpa [waitPodReady, if_neg hc] using h)

/-- The derived pod name is never empty. -/
theorem podNameOf_ne_empty (tenantID : String) : podNameOf tenantID ≠ "" := by
  intro h
  have hlen : ("zeroclaw-" ++ tenantID).length = ("" : String).length :=
    congrArg String.length (by simpa [podNameOf] using h)
  rw [String.length_append] at hlen
  have h9 : ("zeroclaw-" : String).length = 9 := rfl
  have h0 : ("" : String).length = 0 := rfl
  omega

/-! ## The polling path of the wake pipeline (pollUntilRunning) -/

/-- Errors the wake pipeline can return (internal/api/handler.go). -/
inductive WakeErr where
  | noK8s
  | lockErr
  | pvcErr
  | createPodErr
  | readyTimeout
  | pollTimeout
  | updStatusErr
deriving DecidableEq, Repr

/-- The in-loop success test of pollUntilRunning: the re-read record (if the
read succeeded and the record exists) is Running with a non-empty address;
when it is, the loop returns the address. -/
def readyRecord : Option TenantRecord → Option String
  | some r =>
      if r.status = TenantStatus.running ∧ r.podIP ≠ "" then some r.podIP else none
  | none => none

/-- The loop of pollUntilRunning (internal/api/handler.go): while the
deadline `ttlS` has not elapsed, sleep 2 seconds, re-read the record
(`views i` is the i-th read; `none` covers both a read error and a missing
record, which the code treats alike) and return the address as soon as the
record is Running with a non-empty address; once the deadline elapses,
fail with the timeout error. -/
def pollGo (views : Nat → Option TenantRecord) (ttlS : Nat) (elapsed i : Nat) :
    Except WakeErr String :=
  if elapsed < ttlS then
    match readyRecord (views i) with
    | some ip => Except.ok ip
    | none => pollGo views ttlS (elapsed + 2) (i + 1)
  else Except.error WakeErr.pollTimeout
termination_by ttlS - elapsed
decreasing_by omega

/-- pollUntilRunning: poll every 2 seconds from a fresh deadline of the
wake-lock TTL. -/
def pollUntilRunning (views : Nat → Option TenantRecord) (ttlS : Nat) :
    Except WakeErr String :=
  pollGo views ttlS 0 0

/-- Number of 2-second polls that fit before a deadline of `ttlS` seconds:
the i-th read happens at elapsed time 2·(i+1), after the while-condition was
checked at elapsed time 2·i. -/
def numPolls (ttlS : Nat) : Nat := (ttlS + 1) / 2

/-- Structural form of the polling loop on the finite list of reads that
fit inside the deadline. -/
def pollList : List (Option TenantRecord) → Except WakeErr String
  | [] => Except.error WakeErr.pollTimeout
  | v :: rest =>
      match readyRecord v with
      | some ip => Except.ok ip
      | none => pollList rest

/-- The timed loop equals the structural loop over the reads that fit in the
remaining budget. -/
theorem pollGo_eq_pollList (views : Nat → Option TenantRecord) :
    ∀ fuel ttlS elapsed i, ttlS - elapsed = fuel →
      pollGo views ttlS elapsed i =
        pollList ((List.range ((fuel + 1) / 2)).map (fun k => views (i + k))) := by
  intro fuel
  induction fuel using Nat.strong_induction_on with
  | _ fuel ih =>
      intro ttlS elapsed i hfuel
      by_cases h : elapsed < ttlS
      · have hfpos : 0 < fuel := by omega
        have hrange : (fuel + 1) / 2 = ((fuel - 2) + 1) / 2 + 1 := by omega
        rw [pollGo]
        simp only [if_pos h]
        rw [hrange, List.range_succ_eq_map]
        cases hv : readyRecord (views i) with
        | some ip =>
            simp [pollList, hv]
        | none =>
            simp only [List.map_cons, Nat.add_zero, pollList, hv]
            rw [ih (fuel - 2) (by omega) ttlS (elapsed + 2) (i + 1) (by omega)]
            congr 1
            rw [List.map_map]
            apply List.map_congr_left
            intro k _
            simp only [Function.comp_apply]
            congr 1
            omega
      · have hf0 : fuel = 0 := by omega
        rw [pollGo]
        simp [if_neg h, hf0, pollList]

/-- pollUntilRunning in structural form: it performs exactly
`numPolls ttlS` reads. -/
theorem pollUntilRunning_eq (views : Nat → Option TenantRecord) (ttlS : Nat) :
    pollUntilRunning views ttlS =
      pollList ((List.range (numPolls ttlS)).map views) := by
  have := pollGo_eq_pollList views ttlS ttlS 0 0 (by omega)
  simpa [pollUntilRunning, numPolls] using this

/-- pollList succeeds exactly at the first ready read. -/
theorem pollList_ok_of_first {l : List (Option TenantRecord)} :
    ∀ {j : Nat} {a : String}, (∀ k < j, readyRecord (l.getD k none) = none) →
      j < l.length → readyRecord (l.getD j none) = some a →
      pollList l = Except.ok a := by
  induction l with
  | nil => intro j a _ hj _; simp at hj
  | cons v rest ih =>
      intro j a hbefore hj hready
      cases j with
      | zero =>
          simp only [List.getD_cons_zero] at hready
          simp [pollList, hready]
      | succ j =>
          have hv : readyRecord v = none := by
            have := hbefore 0 (Nat.succ_pos j)
            simpa using this
          simp only [pollList, hv]
          refine ih (j := j) (a := a) ?_ (by simpa using hj) (by simpa using hready)
          intro k hk
          have := hbefore (k + 1) (by omega)
          simpa using this

/-- pollList times out exactly when no read is ready. -/
theorem pollList_timeout {l : List (Option TenantRecord)}
    (h : ∀ v ∈ l, readyRecord v = none) :
    pollList l = Except.error WakeErr.pollTimeout := by
  induction l with
  | nil => rfl
  | cons v rest ih =>
      have hv : readyRecord v = none := h v (List.mem_cons_self v rest)
      simp only [pollList, hv]
      exact ih (fun w hw => h w (List.mem_cons_of_mem v hw))

/-! ## The wake pipeline (internal/api/handler.go, wakeOrGet) -/

/-- Environment of one wakeOrGet call: the outcome every external call would
produce.  `lockErr`/`lockAcquired` are the Redis SETNX outcome, `pollViews`
the registry reads of the polling path, `pods`/`warmClaimOk`/`warmErr` the
warm-pool list and conditional-update outcomes, `pvcOk`/`createPodOk`/
`updOk` whether PVC creation, pod creation and the final registry write
succeed, and `readyObs` the pod observations of WaitPodReady that fit in
the readiness budget. -/
structure WakeEnv where
  lockErr : Bool := false
  lockAcquired : Bool := true
  pollViews : Nat → Option TenantRecord := fun _ => none
  pods : List Pod := []
  warmClaimOk : Pod → Bool := fun _ => true
  warmErr : Bool := false
  pvcOk : Bool := true
  createPodOk : Bool := true
  readyObs : List (Option Pod) := []
  updOk : Bool := true
  now : Int := 0

/-- The slow path of wakeOrGet, entered when the fast path did not return:
acquire the wake lock (polling on contention), auto-create a missing record
as Provisioning with the default budget, ensure the PVC, claim a warm pod
(deleting it with zero grace and keeping its node name), create the tenant
pod, wait for readiness, commit Running with the pod name and address, and
release the lock on every exit after acquisition. -/
def wakeSlow (ttlS : Nat) (env : WakeEnv) (cfgNs tenantID : String)
    (rec? : Option TenantRecord) : Except WakeErr String × List Action :=
  if env.lockErr then (Except.error WakeErr.lockErr, [Action.acquireLock tenantID ttlS])
  else if ¬ env.lockAcquired then
    (pollUntilRunning env.pollViews ttlS, [Action.acquireLock tenantID ttlS])
  else
    let newRec : TenantRecord :=
      { tenantID := tenantID
        status := TenantStatus.provisioning
        ns := cfgNs
        s3Path := "tenants/" ++ tenantID ++ "/"
        createdAt := env.now
        lastActiveAt := env.now
        idleTimeoutS := 300 }
    let record := match rec? with | some r => r | none => newRec
    let createActs : List Action :=
      match rec? with | some _ => [] | none => [Action.createRecord newRec]
    let ns := if record.ns ≠ "" then record.ns else cfgNs
    let acts0 := Action.acquireLock tenantID ttlS :: createActs ++ [Action.createPVC tenantID ns]
    if ¬ env.pvcOk then
      (Except.error WakeErr.pvcErr, acts0 ++ [Action.releaseLock tenantID])
    else
      let warm := if env.warmErr then none else getWarmPod env.pods env.warmClaimOk
      let nodeName := match warm with | some wp => wp.nodeName | none => ""
      let warmActs : List Action :=
        match warm with | some wp => [Action.deletePod wp.name ns 0] | none => []
      let acts1 := acts0 ++ warmActs ++ [Action.createPod tenantID ns nodeName]
      if ¬ env.createPodOk then
        (Except.error WakeErr.createPodErr, acts1 ++ [Action.releaseLock tenantID])
      else
        let pod := createTenantPod tenantID ns nodeName
        match waitPodReady env.readyObs with
        | none => (Except.error WakeErr.readyTimeout, acts1 ++ [Action.releaseLock tenantID])
        | some podIP =>
            let acts2 := acts1 ++
              [Action.updStatus tenantID TenantStatus.running pod.name podIP]
            if env.updOk then (Except.ok podIP, acts2 ++ [Action.releaseLock tenantID])
            else (Except.error WakeErr.updStatusErr, acts2 ++ [Action.releaseLock tenantID])

/-- wakeOrGet (internal/api/handler.go): fast path first — when the record
is Running with a non-empty address, return the address with no side effect
at all; otherwise run the slow path. -/
def wakeOrGet (ttlS : Nat) (env : WakeEnv) (reg : Registry)
    (cfgNs tenantID : String) : Except WakeErr String × List Action :=
  match getTenant reg tenantID with
  | some r =>
      if r.status = TenantStatus.running ∧ r.podIP ≠ "" then (Except.ok r.podIP, [])
      else wakeSlow ttlS env cfgNs tenantID (some r)
  | none => wakeSlow ttlS env cfgNs tenantID none

/-! ## HTTP handlers (internal/api/handler.go) -/

/-- An HTTP response whose body is either a JSON object (a list of key/value
pairs, as Go's map[string]string encodes) or a plain-text error line. -/
structure HttpResponse where
  status : Nat
  jsonObj : Option (List (String × String)) := none
deriving DecidableEq, Repr

/-- The Wake handler: 200 with `{"pod_ip": <address>}` on success, 503 with
a plain-text body on any wake failure. -/
def wakeHandler (ttlS : Nat) (env : WakeEnv) (reg : Registry)
    (cfgNs tenantID : String) : HttpResponse :=
  match (wakeOrGet ttlS env reg cfgNs tenantID).1 with
  | Except.ok podIP => { status := 200, jsonObj := some [("pod_ip", podIP)] }
  | Except.error _ => { status := 503, jsonObj := none }

/-- Decoded body of POST /tenants (the handler's request struct). -/
structure CreateReq where
  tenantID : String
  idleTimeoutS : Int := 0
  botToken : String := ""
deriving DecidableEq, Repr

/-- Outcome of the conditional registry create as the handler sees it:
either the store is unreachable, or the conditional write hit an existing
record, or it succeeded. -/
inductive CreateErr where
  | unavailable
  | alreadyExists
deriving DecidableEq, Repr

/-- registry.CreateTenant over the model store: fails Unavailable when the
backing store is unreachable, fails AlreadyExists when a record with the
same id exists, appends the record otherwise. -/
def regCreate (available : Bool) (reg : Registry) (rec : TenantRecord) :
    Except CreateErr Registry :=
  if ¬ available then Except.error CreateErr.unavailable
  else if reg.any (fun r => r.tenantID = rec.tenantID) then
    Except.error CreateErr.alreadyExists
  else Except.ok (reg ++ [rec])

/-- The record POST /tenants builds (internal/api/handler.go CreateTenant):
status Idle, derived storage path, and idle_timeout_s with 300 substituted
when the supplied value is zero. -/
def newTenantRecord (req : CreateReq) (now : Int) (cfgNs : String) : TenantRecord :=
  { tenantID := req.tenantID
    status := TenantStatus.idle
    ns := cfgNs
    s3Path := "tenants/" ++ req.tenantID ++ "/"
    botToken := req.botToken
    createdAt := now
    lastActiveAt := now
    idleTimeoutS := if req.idleTimeoutS = 0 then 300 else req.idleTimeoutS }

/-- The CreateTenant handler (internal/api/handler.go): 400 on a malformed
body (`none`) or an empty tenant_id; substitute 300 when idle_timeout_s is
zero; build the record with status Idle; on ANY registry-create error
respond 409 "conflict"; on success respond 201 with the record, bot token
redacted.  Returns (response, response record if any, new registry, trace). -/
def createTenantHandler (body : Option CreateReq) (available : Bool)
    (now : Int) (cfgNs : String) (reg : Registry) :
    HttpResponse × Option TenantRecord × Registry × List Action :=
  match body with
  | none => ({ status := 400 }, none, reg, [])
  | some req =>
      if req.tenantID = "" then ({ status := 400 }, none, reg, [])
      else
        let rec0 := newTenantRecord req now cfgNs
        match regCreate available reg rec0 with
        | Except.error _ =>
            ({ status := 409 }, none, reg, [Action.createRecord rec0])
        | Except.ok reg2 =>
            ({ status := 201 }, some { rec0 with botToken := "" }, reg2,
              [Action.createRecord rec0])

/-! ## Idle-timeout controller (internal/lifecycle, checkIdleTenants) -/

/-- The real per-tenant threshold, in seconds: idle_timeout_s, with 5
minutes substituted when it is zero. -/
def effIdleTimeout (t : TenantRecord) : Int :=
  if t.idleTimeoutS = 0 then 300 else t.idleTimeoutS

/-- One iteration of the idle loop over a scanned record: skip while the
tenant is inside its own budget; otherwise delete the pod with 30-second
grace and, only if the delete succeeded (`delOk`), set the record to Idle
with empty pod fields. -/
def idleStep (now : Int) (delOk : String → String → Bool) (t : TenantRecord) :
    List Action :=
  if now - t.lastActiveAt < effIdleTimeout t then []
  else if delOk t.podName t.ns then
    [Action.deletePod t.podName t.ns 30,
     Action.updStatus t.tenantID TenantStatus.idle "" ""]
  else [Action.deletePod t.podName t.ns 30]

/-- checkIdleTenants: coarse scan with a fixed 5-minute pre-filter, then the
per-tenant loop; returns the trace and the resulting registry. -/
def checkIdleTenants (now : Int) (delOk : String → String → Bool)
    (reg : Registry) : List Action × Registry :=
  let scanned := listIdleTenants reg 300 now
  let acts := (scanned.map (idleStep now delOk)).flatten
  (acts, applyActions now acts reg)

/-! ## Drift reconciler (internal/reconciler/reconciler.go) -/

/-- The Redis key of the router's address cache for a tenant. -/
def cacheKeyOf (tenantID : String) : String := "router:endpoint:" ++ tenantID

/-- One iteration of the reconcile loop over a Running record: check the
pod derived from the tenant id (`podExists` returns `none` on a lookup
error, which the loop skips); when the pod is absent, reset the record to
Idle with empty pod fields and delete the address-cache entry. -/
def reconcileStep (podExists : String → Option Bool) (t : TenantRecord) :
    List Action :=
  match podExists (podNameOf t.tenantID) with
  | none => []
  | some true => []
  | some false =>
      [Action.updStatus t.tenantID TenantStatus.idle "" "",
       Action.delCacheKey (cacheKeyOf t.tenantID)]

/-- One reconcile pass: scan the Running records and run the loop; returns
the trace and the resulting registry. -/
def reconcile (now : Int) (podExists : String → Option Bool) (reg : Registry) :
    List Action × Registry :=
  let scanned := listByStatus TenantStatus.running reg
  let acts := (scanned.map (reconcileStep podExists)).flatten
  (acts, applyActions now acts reg)

/-! ## touch_activity: the two registry implementations

internal/registry/mock.go UpdateActivity looks the record up and silently
returns with no write when it is missing.  internal/registry/registry.go
UpdateActivity issues a DynamoDB UpdateItem with no condition expression;
per DynamoDB semantics UpdateItem edits the existing item or ADDS A NEW
ITEM with the given key when none exists, so on a missing id it upserts a
partial item holding only the key and last_active_at. -/

/-- MockClient.UpdateActivity: stamp last_active_at when the record exists,
change nothing (and still succeed) when it does not. -/
def mockUpdateActivity (now : Int) (reg : Registry) (tenantID : String) : Registry :=
  reg.map (fun r => if r.tenantID = tenantID then { r with lastActiveAt := now } else r)

/-- A DynamoDB item: an attribute map. -/
abbrev DynItem := List (String × String)

/-- The registry table as DynamoDB holds it: tenant_id → item. -/
abbrev DynTable := List (String × DynItem)

/-- SET of one attribute in an item (replace or add). -/
def setAttr (item : DynItem) (key v : String) : DynItem :=
  if item.any (fun kv => kv.1 = key) then
    item.map (fun kv => if kv.1 = key then (kv.1, v) else kv)
  else item ++ [(key, v)]

/-- Store an item under a key (replace or add). -/
def putItem (table : DynTable) (key : String) (item : DynItem) : DynTable :=
  if table.any (fun kv => kv.1 = key) then
    table.map (fun kv => if kv.1 = key then (kv.1, item) else kv)
  else table ++ [(key, item)]

/-- DynamoClient.UpdateActivity: UpdateItem with
`SET last_active_at = :la` and no condition expression.  DynamoDB UpdateItem
"edits an existing item's attributes, or adds a new item to the table if it
does not already exist": on a missing id the written item holds only the
key attribute and last_active_at.  `laStr` stands for the RFC3339-formatted
current time. -/
def dynamoUpdateActivity (table : DynTable) (tenantID laStr : String) : DynTable :=
  match table.find? (fun kv => kv.1 = tenantID) with
  | some kv => putItem table tenantID (setAttr kv.2 "last_active_at" laStr)
  | none => putItem table tenantID (setAttr [("tenant_id", tenantID)] "last_active_at" laStr)

/-! ## Registry effect of demotion traces

Both background loops write the registry only through
`updStatus _ Idle "" ""`.  The following lemmas compute the net registry
effect of such a trace as a single keyed map. -/

/-- The demotion the loops perform: status Idle, pod fields cleared,
last_active_at stamped. -/
def demote (now : Int) (r : TenantRecord) : TenantRecord :=
  { r with status := TenantStatus.idle, podName := "", podIP := "",
           lastActiveAt := now }

/-- A trace whose only registry writes are demotions to Idle with empty pod
fields. -/
def isDemoteAct : Action → Prop
  | Action.updStatus _ status podName podIP =>
      status = TenantStatus.idle ∧ podName = "" ∧ podIP = ""
  | Action.createRecord _ => False
  | Action.touchActivity _ => False
  | Action.deleteRecord _ => False
  | _ => True

/-- The tenant ids a trace demotes. -/
def demoteTargets : List Action → List String
  | [] => []
  | Action.updStatus tenantID status podName podIP :: rest =>
      if status = TenantStatus.idle ∧ podName = "" ∧ podIP = "" then
        tenantID :: demoteTargets rest
      else demoteTargets rest
  | _ :: rest => demoteTargets rest

theorem demoteTargets_append (l1 l2 : List Action) :
    demoteTargets (l1 ++ l2) = demoteTargets l1 ++ demoteTargets l2 := by
  induction l1 with
  | nil => rfl
  | cons a rest ih =>
      cases a with
      | updStatus tenantID status podName podIP =>
          by_cases h : status = TenantStatus.idle ∧ podName = "" ∧ podIP = ""
          · simp [demoteTargets, h, ih]
          · simp [demoteTargets, h, ih]
      | acquireLock tenantID ttlS => simp [demoteTargets, ih]
      | releaseLock tenantID => simp [demoteTargets, ih]
      | createRecord rec => simp [demoteTargets, ih]
      | touchActivity tenantID => simp [demoteTargets, ih]
      | deleteRecord tenantID => simp [demoteTargets, ih]
      | createPVC tenantID ns => simp [demoteTargets, ih]
      | createPod tenantID ns nodeName => simp [demoteTargets, ih]
      | deletePod name ns graceS => simp [demoteTargets, ih]
      | delCacheKey key => simp [demoteTargets, ih]

/-- Net registry effect of a demotion-only trace: demote exactly the
targeted ids, keyed by tenant id. -/
theorem applyActions_demoteOnly (now : Int) :
    ∀ (acts : List Action) (reg : Registry), (∀ a ∈ acts, isDemoteAct a) →
      applyActions now acts reg =
        reg.map (fun r =>
          if r.tenantID ∈ demoteTargets acts then demote now r else r) := by
  intro acts
  induction acts with
  | nil =>
      intro reg _
      simp [applyActions, demoteTargets]
  | cons a rest ih =>
      intro reg hact
      have hrest : ∀ b ∈ rest, isDemoteAct b :=
        fun b hb => hact b (List.mem_cons_of_mem a hb)
      have hstep : applyActions now (a :: rest) reg =
          applyActions now rest (applyRegAction now reg a) := rfl
      cases a with
      | updStatus tenantID status podName podIP =>
          have hd := hact _ (List.mem_cons_self _ rest)
          simp only [isDemoteAct] at hd
          obtain ⟨hst, hpn, hpi⟩ := hd
          subst hst; subst hpn; subst hpi
          rw [hstep, ih _ hrest]
          have happ : applyRegAction now reg
              (Action.updStatus tenantID TenantStatus.idle "" "") =
              reg.map (fun r =>
                if r.tenantID = tenantID then demote now r else r) := by
            simp only [applyRegAction]
            apply List.map_congr_left
            intro r _
            by_cases h : r.tenantID = tenantID
            · simp [h, demote]
            · simp [h]
          rw [happ, List.map_map]
          have htarg : demoteTargets
              (Action.updStatus tenantID TenantStatus.idle "" "" :: rest) =
              tenantID :: demoteTargets rest := by
            simp [demoteTargets]
          rw [htarg]
          apply List.map_congr_left
          intro r _
          by_cases h : r.tenantID = tenantID
          · by_cases h2 : r.tenantID ∈ demoteTargets rest <;>
              simp [Function.comp, h, h2, demote, List.mem_cons]
          · by_cases h2 : r.tenantID ∈ demoteTargets rest <;>
              simp [Function.comp, h, h2, demote, List.mem_cons]
      | createRecord rec =>
          exact absurd (hact _ (List.mem_cons_self _ rest)) (by simp [isDemoteAct])
      | touchActivity tenantID =>
          exact absurd (hact _ (List.mem_cons_self _ rest)) (by simp [isDemoteAct])
      | deleteRecord tenantID =>
          exact absurd (hact _ (List.mem_cons_self _ rest)) (by simp [isDemoteAct])
      | acquireLock tenantID ttlS => rw [hstep, ih _ hrest]; rfl
      | releaseLock tenantID => rw [hstep, ih _ hrest]; rfl
      | createPVC tenantID ns => rw [hstep, ih _ hrest]; rfl
      | createPod tenantID ns nodeName => rw [hstep, ih _ hrest]; rfl
      | deletePod name ns graceS => rw [hstep, ih _ hrest]; rfl
      | delCacheKey key => rw [hstep, ih _ hrest]; rfl

/-- Two members of a registry with pairwise-distinct ids and the same id are
the same record. -/
theorem UniqueIds.eq_of_mem {reg : Registry} (h : UniqueIds reg)
    {r s : TenantRecord} (hr : r ∈ reg) (hs : s ∈ reg)
    (hid : r.tenantID = s.tenantID) : r = s := by
  induction reg with
  | nil => cases hr
  | cons a rest ih =>
      have hpw := List.pairwise_cons.mp h
      rcases List.mem_cons.mp hr with rfl | hr2
      · rcases List.mem_cons.mp hs with rfl | hs2
        · rfl
        · exact absurd hid (hpw.1 s hs2)
      · rcases List.mem_cons.mp hs with rfl | hs2
        · exact absurd hid.symm (hpw.1 r hr2)
        · exact ih hpw.2 hr2 hs2

/-! ## What the wake pipeline writes -/

/-- Per-action specification of the wake pipeline's trace: the only record
it ever creates is the Provisioning auto-created record with the default
300-second budget and empty pod fields, and the only status it ever merges
is the Running commit carrying the derived pod name and an address returned
by WaitPodReady.  It never touches activity and never deletes records. -/
def wakeActOK (env : WakeEnv) (tenantID : String) : Action → Prop
  | Action.createRecord rec =>
      rec.tenantID = tenantID ∧ rec.status = TenantStatus.provisioning ∧
      rec.podName = "" ∧ rec.podIP = "" ∧ rec.idleTimeoutS = 300
  | Action.updStatus tid2 status podName podIP =>
      tid2 = tenantID ∧ status = TenantStatus.running ∧
      podName = podNameOf tenantID ∧ waitPodReady env.readyObs = some podIP
  | Action.touchActivity _ => False
  | Action.deleteRecord _ => False
  | _ => True

theorem wakeSlow_trace_spec (ttlS : Nat) (env : WakeEnv)
    (cfgNs tenantID : String) (rec? : Option TenantRecord) :
    ∀ a ∈ (wakeSlow ttlS env cfgNs tenantID rec?).2, wakeActOK env tenantID a := by
  intro a ha
  rcases rec? with _ | r
  all_goals unfold wakeSlow at ha
  all_goals split at ha
  case isTrue =>
    simp only [List.mem_cons, List.not_mem_nil, or_false] at ha
    subst ha; trivial
  case isTrue =>
    simp only [List.mem_cons, List.not_mem_nil, or_false] at ha
    subst ha; trivial
  all_goals split at ha
  case isTrue =>
    simp only [List.mem_cons, List.not_mem_nil, or_false] at ha
    subst ha; trivial
  case isTrue =>
    simp only [List.mem_cons, List.not_mem_nil, or_false] at ha
    subst ha; trivial
  all_goals
    cases hwarm : (if env.warmErr then none
        else getWarmPod env.pods env.warmClaimOk) <;>
      simp only [hwarm] at ha <;>
      split at ha
  all_goals try split at ha
  all_goals try split at ha
  all_goals try split at ha
  all_goals try split at ha
  all_goals
    try (simp only [List.mem_cons, List.mem_append, List.mem_singleton,
      List.not_mem_nil, or_false, false_or] at ha)
  all_goals try (simp only [or_assoc] at ha)
  all_goals rcases ha with rfl | rfl | rfl | rfl | rfl | rfl | rfl | rfl
  all_goals trivial

/-- The whole wakeOrGet trace (the fast path contributes no action). -/
theorem wakeOrGet_trace_spec (ttlS : Nat) (env : WakeEnv) (reg : Registry)
    (cfgNs tenantID : String) :
    ∀ a ∈ (wakeOrGet ttlS env reg cfgNs tenantID).2, wakeActOK env tenantID a := by
  intro a ha
  unfold wakeOrGet at ha
  split at ha
  · split at ha
    · simp at ha
    · exact wakeSlow_trace_spec ttlS env cfgNs tenantID _ a ha
  · exact wakeSlow_trace_spec ttlS env cfgNs tenantID _ a ha

/-- Every action the wake pipeline traces is an I1-compatible write. -/
theorem wakeActOK_regWriteOK {env : WakeEnv} {tenantID : String} {a : Action}
    (h : wakeActOK env tenantID a) : regWriteOK a := by
  cases a with
  | createRecord rec =>
      obtain ⟨_, hst, hpn, hpi, _⟩ := h
      refine ⟨fun hr => ?_, fun hr => ⟨hpn, hpi⟩⟩
      rw [hst] at hr; cases hr
  | updStatus tid2 status podName podIP =>
      obtain ⟨_, hst, hpn, hready⟩ := h
      subst hst
      refine ⟨fun _ => ⟨?_, waitPodReady_ne_empty hready⟩, fun hr => ?_⟩
      · rw [hpn]; exact podNameOf_ne_empty tenantID
      · rcases hr with hr | hr <;> cases hr
  | touchActivity tenantID2 => cases h
  | deleteRecord tenantID2 => cases h
  | acquireLock tenantID2 ttlS2 => trivial
  | releaseLock tenantID2 => trivial
  | createPVC tenantID2 ns => trivial
  | createPod tenantID2 ns nodeName => trivial
  | deletePod name ns graceS => trivial
  | delCacheKey key => trivial

/-- Every action of an idle tick is either the 30-second-grace pod delete or
the demotion write. -/
theorem checkIdleTenants_trace_mem {now : Int} {delOk : String → String → Bool}
    {reg : Registry} {a : Action} (ha : a ∈ (checkIdleTenants now delOk reg).1) :
    ∃ t ∈ listIdleTenants reg 300 now, a ∈ idleStep now delOk t := by
  simp only [checkIdleTenants, List.mem_flatten, List.mem_map] at ha
  obtain ⟨l, ⟨t, ht, rfl⟩, hal⟩ := ha
  exact ⟨t, ht, hal⟩

/-- Idle-tick actions are demotions or pod deletes. -/
theorem idleStep_actions {now : Int} {delOk : String → String → Bool}
    {t : TenantRecord} {a : Action} (ha : a ∈ idleStep now delOk t) :
    a = Action.deletePod t.podName t.ns 30 ∨
    a = Action.updStatus t.tenantID TenantStatus.idle "" "" := by
  unfold idleStep at ha
  split at ha
  · simp at ha
  · split at ha <;> simp only [List.mem_cons, List.not_mem_nil, or_false] at ha <;>
      tauto

/-- Reconciler actions are demotions or cache deletes. -/
theorem reconcileStep_actions {podExists : String → Option Bool}
    {t : TenantRecord} {a : Action} (ha : a ∈ reconcileStep podExists t) :
    a = Action.updStatus t.tenantID TenantStatus.idle "" "" ∨
    a = Action.delCacheKey (cacheKeyOf t.tenantID) := by
  unfold reconcileStep at ha
  split at ha
  · simp at ha
  · simp at ha
  · simp only [List.mem_cons, List.not_mem_nil, or_false] at ha; tauto

theorem reconcile_trace_mem {now : Int} {podExists : String → Option Bool}
    {reg : Registry} {a : Action} (ha : a ∈ (reconcile now podExists reg).1) :
    ∃ t ∈ listByStatus TenantStatus.running reg, a ∈ reconcileStep podExists t := by
  simp only [reconcile, List.mem_flatten, List.mem_map] at ha
  obtain ⟨l, ⟨t, ht, rfl⟩, hal⟩ := ha
  exact ⟨t, ht, hal⟩

/-! ## Claim theorems -/

/-- A concrete Running record used by witnesses. -/
def sampleRunning : TenantRecord :=
  { tenantID := "alice", status := TenantStatus.running,
    podName := "zeroclaw-alice", podIP := "10.0.0.5", ns := "tenants",
    idleTimeoutS := 300 }

/-- C2: fast path of wake — for every tenant whose registry record has
status Running and a non-empty pod address, wake(tenant_id) returns that
address and performs no side effect at all: the empty trace contains no
lock acquisition, no record creation, no pod or volume creation, and no
registry write. -/
theorem wake_fast_path (ttlS : Nat) (env : WakeEnv) (reg : Registry)
    (cfgNs tenantID : String) (r : TenantRecord)
    (hget : getTenant reg tenantID = some r)
    (hrun : r.status = TenantStatus.running) (hip : r.podIP ≠ "") :
    wakeOrGet ttlS env reg cfgNs tenantID = (Except.ok r.podIP, []) := by
  unfold wakeOrGet
  rw [hget]
  simp [hrun, hip]

/-- Witness for C2 at a concrete Running record. -/
theorem wake_fast_path_witness :
    wakeOrGet 240 {} [sampleRunning] "tenants" "alice" = (Except.ok "10.0.0.5", []) :=
  wake_fast_path 240 {} _ "tenants" "alice"
    sampleRunning
    (by decide) (by decide) (by decide)

/-- C7 (corrected), counterexample to the claim as stated: on a successful
wake of a Running tenant the handler responds 200, but the single key of
the JSON body is "pod_ip", not "pod_address". -/
theorem wake_response_key_counterexample :
    (wakeHandler 240 {} [sampleRunning] "tenants" "alice") =
      { status := 200, jsonObj := some [("pod_ip", "10.0.0.5")] } ∧
    "pod_ip" ≠ "pod_address" := by
  constructor
  · rfl
  · decide

/-- C7 as amended: on success POST /wake/{id} responds 200 with a JSON body
whose single key is pod_ip holding the committed address of the tenant's
pod; on failure it responds 503. -/
theorem wake_response_amended (ttlS : Nat) (env : WakeEnv) (reg : Registry)
    (cfgNs tenantID : String) :
    (∀ podIP, (wakeOrGet ttlS env reg cfgNs tenantID).1 = Except.ok podIP →
      wakeHandler ttlS env reg cfgNs tenantID =
        { status := 200, jsonObj := some [("pod_ip", podIP)] }) ∧
    (∀ e, (wakeOrGet ttlS env reg cfgNs tenantID).1 = Except.error e →
      wakeHandler ttlS env reg cfgNs tenantID = { status := 503, jsonObj := none }) := by
  constructor
  · intro podIP h
    unfold wakeHandler
    rw [h]
  · intro e h
    unfold wakeHandler
    rw [h]

/-- Witness for C7's amended theorem: a concrete success and a concrete
failure. -/
theorem wake_response_amended_witness :
    (wakeHandler 240 {} [sampleRunning] "tenants" "alice") =
      { status := 200, jsonObj := some [("pod_ip", "10.0.0.5")] } ∧
    (wakeHandler 240 { lockErr := true } [] "tenants" "bob") =
      { status := 503, jsonObj := none } := by
  constructor
  · exact (wake_response_amended 240 {} _ "tenants" "alice").1 "10.0.0.5" rfl
  · exact (wake_response_amended 240 { lockErr := true } [] "tenants" "bob").2
      WakeErr.lockErr rfl

/-- C8 (corrected), counterexample to the claim as stated: with the backing
store unreachable and no duplicate record, POST /tenants responds 409, not
503. -/
theorem create_tenant_conflict_counterexample :
    (createTenantHandler (some { tenantID := "alice" }) false 0 "tenants" []).1.status = 409 ∧
    (createTenantHandler (some { tenantID := "alice" }) false 0 "tenants" []).1.status ≠ 503 ∧
    (∀ r ∈ ([] : Registry), r.tenantID ≠ "alice") := by
  refine ⟨rfl, by decide, by simp⟩

/-- C8 as amended: POST /tenants with a valid body creates the record with
status Idle and responds 201 with the record, bot token redacted; it
responds 409 whenever the registry create fails — on a duplicate tenant_id
AND when the backing store is unreachable — and it never responds 503. -/
theorem create_tenant_amended (req : CreateReq) (avail : Bool) (now : Int)
    (cfgNs : String) (reg : Registry) (hid : req.tenantID ≠ "") :
    ((createTenantHandler (some req) avail now cfgNs reg).1.status = 409 ↔
      (avail = false ∨ reg.any (fun r => r.tenantID = req.tenantID) = true)) ∧
    ((createTenantHandler (some req) avail now cfgNs reg).1.status = 201 ∨
      (createTenantHandler (some req) avail now cfgNs reg).1.status = 409) ∧
    (avail = true → reg.any (fun r => r.tenantID = req.tenantID) = false →
      (createTenantHandler (some req) avail now cfgNs reg).1.status = 201 ∧
      (createTenantHandler (some req) avail now cfgNs reg).2.2.1 =
        reg ++ [newTenantRecord req now cfgNs] ∧
      (createTenantHandler (some req) avail now cfgNs reg).2.1 =
        some { newTenantRecord req now cfgNs with botToken := "" } ∧
      (newTenantRecord req now cfgNs).status = TenantStatus.idle) := by
  unfold createTenantHandler regCreate
  cases avail with
  | false =>
      simp [hid]
  | true =>
      by_cases hdup : reg.any (fun r => r.tenantID = req.tenantID) = true
      · have hdup2 : ∃ x ∈ reg, x.tenantID = req.tenantID := by simpa using hdup
        simp [hid, hdup, newTenantRecord, hdup2]
      · have hdup2 : ¬ ∃ x ∈ reg, x.tenantID = req.tenantID := by
          simpa using hdup
        simp [hid, hdup, newTenantRecord, hdup2]

/-- Witness for C8's amended theorem at a concrete fresh create. -/
theorem create_tenant_amended_witness :
    (createTenantHandler (some { tenantID := "bob" }) true 7 "tenants" []).1.status = 201 ∧
    (createTenantHandler (some { tenantID := "bob" }) true 7 "tenants" []).2.2.1 =
      [newTenantRecord { tenantID := "bob" } 7 "tenants"] := by
  have h := create_tenant_amended { tenantID := "bob" } true 7 "tenants" [] (by decide)
  have h3 := h.2.2 rfl (by decide)
  exact ⟨h3.1, by rw [h3.2.1]; rfl⟩

/-- C10 (corrected), counterexample to the claim as stated: a record created
with a negative idle budget is stored with that negative budget, not 300,
although the budget is not positive. -/
theorem default_budget_counterexample :
    (getTenant ((createTenantHandler
        (some { tenantID := "carol", idleTimeoutS := -1 }) true 0 "tenants" []).2.2.1)
        "carol").map TenantRecord.idleTimeoutS = some (-1) ∧
    ¬ (0 : Int) < -1 ∧ (-1 : Int) ≠ 300 := by
  refine ⟨rfl, by decide, by decide⟩

/-- C10 as amended: POST /tenants substitutes 300 exactly when the supplied
idle budget is zero (absent fields decode to zero; a negative supplied
budget is stored unchanged), and wake's auto-created record always carries
budget 300. -/
theorem default_budget_amended :
    (∀ (req : CreateReq) (avail : Bool) (now : Int) (cfgNs : String)
        (reg : Registry) (rec : TenantRecord), req.tenantID ≠ "" →
      Action.createRecord rec ∈ (createTenantHandler (some req) avail now cfgNs reg).2.2.2 →
      rec.idleTimeoutS = (if req.idleTimeoutS = 0 then 300 else req.idleTimeoutS)) ∧
    (∀ (ttlS : Nat) (env : WakeEnv) (reg : Registry) (cfgNs tenantID : String)
        (rec : TenantRecord),
      Action.createRecord rec ∈ (wakeOrGet ttlS env reg cfgNs tenantID).2 →
      rec.idleTimeoutS = 300 ∧ rec.status = TenantStatus.provisioning) := by
  constructor
  · intro req avail now cfgNs reg rec hid hmem
    simp only [createTenantHandler] at hmem
    rw [if_neg hid] at hmem
    cases hc : regCreate avail reg (newTenantRecord req now cfgNs) with
    | error e =>
        simp only [hc, List.mem_cons, List.not_mem_nil, or_false,
          Action.createRecord.injEq] at hmem
        subst hmem; rfl
    | ok reg2 =>
        simp only [hc, List.mem_cons, List.not_mem_nil, or_false,
          Action.createRecord.injEq] at hmem
        subst hmem; rfl
  · intro ttlS env reg cfgNs tenantID rec hmem
    have h := wakeOrGet_trace_spec ttlS env reg cfgNs tenantID _ hmem
    obtain ⟨_, hst, _, _, hbudget⟩ := h
    exact ⟨hbudget, hst⟩

/-- Witness for C10's amended theorem: the record stored for a zero-budget
create carries 300. -/
theorem default_budget_amended_witness :
    (newTenantRecord { tenantID := "dave" } 0 "tenants").idleTimeoutS = 300 := by
  have h := default_budget_amended.1 { tenantID := "dave" } true 0 "tenants" []
      (newTenantRecord { tenantID := "dave" } 0 "tenants") (by decide) (by decide)
  simpa using h

/-- getTenant through an id-preserving per-record update. -/
theorem getTenant_map_preserveID (f : TenantRecord → TenantRecord)
    (hf : ∀ r, (f r).tenantID = r.tenantID) (reg : Registry) (tenantID : String) :
    getTenant (reg.map f) tenantID = (getTenant reg tenantID).map f := by
  unfold getTenant
  rw [List.find?_map]
  have hp : ((fun r => decide (r.tenantID = tenantID)) ∘ f) =
      (fun r : TenantRecord => decide (r.tenantID = tenantID)) := by
    funext r
    simp [Function.comp, hf]
  rw [hp]

/-- C9 (corrected), counterexample to the claim as stated: the
DynamoDB-backed touch_activity on a missing id does NOT leave the registry
unchanged — UpdateItem upserts, so a new (partial) item appears for the
missing id. -/
theorem touch_activity_counterexample :
    dynamoUpdateActivity [] "ghost" "t5" =
      [("ghost", [("tenant_id", "ghost"), ("last_active_at", "t5")])] ∧
    dynamoUpdateActivity [] "ghost" "t5" ≠ ([] : DynTable) := by
  exact ⟨rfl, by decide⟩

/-- C9 as amended: touch_activity never fails with NotFound (both
implementations are total and signal no error); when the record exists it
stamps last_active_at with the current time; on a missing id the mock
registry leaves the store unchanged, but the DynamoDB-backed registry
upserts a partial item holding only the key and last_active_at — it DOES
create an item for the missing id. -/
theorem touch_activity_amended :
    (∀ (now : Int) (reg : Registry) (tenantID : String),
      (∀ r ∈ reg, r.tenantID ≠ tenantID) → mockUpdateActivity now reg tenantID = reg) ∧
    (∀ (now : Int) (reg : Registry) (tenantID : String),
      getTenant (mockUpdateActivity now reg tenantID) tenantID =
        (getTenant reg tenantID).map (fun r => { r with lastActiveAt := now })) ∧
    (∀ (table : DynTable) (tenantID laStr : String),
      table.find? (fun kv => kv.1 = tenantID) = none →
      dynamoUpdateActivity table tenantID laStr =
        table ++ [(tenantID, [("tenant_id", tenantID), ("last_active_at", laStr)])]) ∧
    (∀ (table : DynTable) (tenantID laStr : String) (kv : String × DynItem),
      table.find? (fun kv2 => kv2.1 = tenantID) = some kv →
      (dynamoUpdateActivity table tenantID laStr).map Prod.fst = table.map Prod.fst) := by
  refine ⟨?_, ?_, ?_, ?_⟩
  · intro now reg tenantID hmiss
    unfold mockUpdateActivity
    have : ∀ r ∈ reg, (if r.tenantID = tenantID
        then { r with lastActiveAt := now } else r) = r := by
      intro r hr
      rw [if_neg (hmiss r hr)]
    rw [List.map_congr_left this]
    simp
  · intro now reg tenantID
    unfold mockUpdateActivity
    rw [getTenant_map_preserveID
      (fun r => if r.tenantID = tenantID then { r with lastActiveAt := now } else r)
      (fun r => by by_cases h : r.tenantID = tenantID <;> simp [h]) reg tenantID]
    cases hg : getTenant reg tenantID with
    | none => rfl
    | some r =>
        unfold getTenant at hg
        have hid : r.tenantID = tenantID := by
          have := List.find?_some hg
          simpa using this
        simp [hid]
  · intro table tenantID laStr hmiss
    unfold dynamoUpdateActivity
    rw [hmiss]
    unfold putItem
    have hany : table.any (fun kv => kv.1 = tenantID) = false := by
      rw [List.any_eq_false]
      intro kv hkv
      have := List.find?_eq_none.mp hmiss kv hkv
      simpa using this
    rw [hany]
    rfl
  · intro table tenantID laStr kv hfind
    unfold dynamoUpdateActivity
    rw [hfind]
    unfold putItem
    have hany : table.any (fun kv2 => kv2.1 = tenantID) = true := by
      rw [List.any_eq_true]
      refine ⟨kv, List.mem_of_find?_eq_some hfind, ?_⟩
      have := List.find?_some hfind
      simpa using this
    rw [hany]
    simp only [if_true]
    rw [List.map_map]
    apply List.map_congr_left
    intro x _
    by_cases hx : x.1 = tenantID <;> simp [hx]

/-- Witness for C9's amended theorem at concrete stores. -/
theorem touch_activity_amended_witness :
    mockUpdateActivity 9 [sampleRunning] "ghost" = [sampleRunning] ∧
    dynamoUpdateActivity [] "ghost" "t9" =
      [("ghost", [("tenant_id", "ghost"), ("last_active_at", "t9")])] := by
  constructor
  · exact touch_activity_amended.1 9 [sampleRunning] "ghost" (by decide)
  · exact touch_activity_amended.2.2.1 [] "ghost" "t9" (by decide)

/-- C3: when wake fails to acquire the wake lock it performs nothing but
the acquisition attempt — no pod creation and no registry write — and
enters polling mode: one registry re-read every 2 seconds, returning the
pod address at the first read that shows Running with a non-empty address,
and failing with the timeout error once the wake-lock TTL elapses with no
such read. -/
theorem wake_lock_contention (ttlS : Nat) (env : WakeEnv) (reg : Registry)
    (cfgNs tenantID : String)
    (hle : env.lockErr = false)
    (hacq : env.lockAcquired = false)
    (hslow : ∀ r, getTenant reg tenantID = some r →
      ¬(r.status = TenantStatus.running ∧ r.podIP ≠ "")) :
    wakeOrGet ttlS env reg cfgNs tenantID =
      (pollUntilRunning env.pollViews ttlS, [Action.acquireLock tenantID ttlS]) ∧
    ((∀ i < numPolls ttlS, readyRecord (env.pollViews i) = none) →
      (wakeOrGet ttlS env reg cfgNs tenantID).1 = Except.error WakeErr.pollTimeout) ∧
    (∀ j ip, j < numPolls ttlS → readyRecord (env.pollViews j) = some ip →
      (∀ k < j, readyRecord (env.pollViews k) = none) →
      (wakeOrGet ttlS env reg cfgNs tenantID).1 = Except.ok ip) := by
  have hmain : wakeOrGet ttlS env reg cfgNs tenantID =
      (pollUntilRunning env.pollViews ttlS, [Action.acquireLock tenantID ttlS]) := by
    unfold wakeOrGet
    cases hg : getTenant reg tenantID with
    | some r =>
        show (if r.status = TenantStatus.running ∧ r.podIP ≠ "" then
            ((Except.ok r.podIP : Except WakeErr String), ([] : List Action))
          else wakeSlow ttlS env cfgNs tenantID (some r)) = _
        rw [if_neg (hslow r hg)]
        unfold wakeSlow
        simp [hle, hacq]
    | none =>
        show wakeSlow ttlS env cfgNs tenantID none = _
        unfold wakeSlow
        simp [hle, hacq]
  have hget : ∀ k, k < numPolls ttlS →
      ((List.range (numPolls ttlS)).map env.pollViews).getD k none =
        env.pollViews k := by
    intro k hk
    rw [List.getD_eq_getElem?_getD, List.getElem?_map, List.getElem?_range hk]
    rfl
  refine ⟨hmain, ?_, ?_⟩
  · intro hnone
    rw [hmain]
    show pollUntilRunning env.pollViews ttlS = Except.error WakeErr.pollTimeout
    rw [pollUntilRunning_eq]
    apply pollList_timeout
    intro v hv
    rcases List.mem_map.mp hv with ⟨i, hi, rfl⟩
    exact hnone i (List.mem_range.mp hi)
  · intro j ip hj hready hbefore
    rw [hmain]
    show pollUntilRunning env.pollViews ttlS = Except.ok ip
    rw [pollUntilRunning_eq]
    apply pollList_ok_of_first (j := j) (a := ip)
    · intro k hk
      rw [hget k (Nat.lt_trans hk hj)]
      exact hbefore k hk
    · simpa using hj
    · rw [hget j hj]
      exact hready

/-- A contended-wake environment used by witnesses: the lock is already
held and the second registry re-read observes the Running record. -/
def envContention : WakeEnv :=
  { lockAcquired := false
    pollViews := fun i => if i = 1 then some sampleRunning else none }

/-- Witness for C3: with a 6-second TTL (3 polls) and the record turning
Running at the second read, the contended wake returns its address. -/
theorem wake_lock_contention_witness :
    wakeOrGet 6 envContention [] "tenants" "alice" =
      (pollUntilRunning envContention.pollViews 6, [Action.acquireLock "alice" 6]) ∧
    (wakeOrGet 6 envContention [] "tenants" "alice").1 = Except.ok "10.0.0.5" := by
  have h := wake_lock_contention 6 envContention [] "tenants" "alice" rfl rfl
    (fun r hr => by simp [getTenant] at hr)
  exact ⟨h.1, h.2.2 1 "10.0.0.5" (by decide) rfl (by decide)⟩

/-- The warm-claim loop equals a first-success search over the ready
candidates. -/
theorem getWarmPodGo_eq_find (updateOk : Pod → Bool) (l : List Pod) :
    getWarmPodGo updateOk l =
      ((l.filter (fun p => warmCandidate p)).find? updateOk).map
        (fun p => setLabel p "warm" "consuming") := by
  induction l with
  | nil => rfl
  | cons p rest ih =>
      by_cases hc : warmCandidate p
      · by_cases hok : updateOk p
        · simp [getWarmPodGo, hc, List.filter_cons, List.find?_cons, hok]
        · simp [getWarmPodGo, hc, List.filter_cons, List.find?_cons, hok, ih]
      · simp [getWarmPodGo, hc, List.filter_cons, ih]

/-- C6: the warm-pod claim considers only pods matching the warm-pool
selector that are Running with a non-empty address and not terminating,
walks them in order attempting the conditional relabel
warm=true → warm=consuming (skipping any candidate whose conditional
update fails), returns the first successfully relabeled pod or nothing,
and never returns a pod that was not Running, had an empty address, or was
terminating. -/
theorem warm_claim_spec (pods : List Pod) (updateOk : Pod → Bool) :
    (∀ q, getWarmPod pods updateOk = some q →
      ∃ p, p ∈ pods ∧ warmSelector p ∧ p.phase = PodPhase.running ∧
        p.podIP ≠ "" ∧ p.deletionTimestamp = none ∧ updateOk p = true ∧
        q = setLabel p "warm" "consuming" ∧ q.phase = PodPhase.running ∧
        q.podIP ≠ "" ∧ q.deletionTimestamp = none) ∧
    (getWarmPod pods updateOk =
      (((pods.filter (fun p => warmSelector p)).filter
          (fun p => warmCandidate p)).find? updateOk).map
        (fun p => setLabel p "warm" "consuming")) ∧
    (getWarmPod pods updateOk = none ↔
      ∀ p ∈ pods, warmSelector p → warmCandidate p → updateOk p = false) := by
  have heq : getWarmPod pods updateOk =
      (((pods.filter (fun p => warmSelector p)).filter
          (fun p => warmCandidate p)).find? updateOk).map
        (fun p => setLabel p "warm" "consuming") := by
    unfold getWarmPod
    exact getWarmPodGo_eq_find updateOk _
  refine ⟨?_, heq, ?_⟩
  · intro q hq
    rw [heq] at hq
    rcases Option.map_eq_some'.mp hq with ⟨p, hfind, rfl⟩
    have hmem := List.mem_of_find?_eq_some hfind
    have hok := List.find?_some hfind
    rcases List.mem_filter.mp hmem with ⟨hmem2, hcand⟩
    rcases List.mem_filter.mp hmem2 with ⟨hmem3, hsel⟩
    have hsel2 : warmSelector p := by simpa using hsel
    have hcand2 : warmCandidate p := by simpa using hcand
    obtain ⟨hph, hip, hdel⟩ := hcand2
    exact ⟨p, hmem3, hsel2, hph, hip, hdel, hok, rfl, hph, hip, hdel⟩
  · rw [heq]
    rw [Option.map_eq_none']
    rw [List.find?_eq_none]
    constructor
    · intro h p hp hsel hcand
      have : ¬ updateOk p = true :=
        h p (List.mem_filter.mpr ⟨List.mem_filter.mpr ⟨hp, by simpa using hsel⟩,
          by simpa using hcand⟩)
      simpa using this
    · intro h p hp
      rcases List.mem_filter.mp hp with ⟨hp2, hcand⟩
      rcases List.mem_filter.mp hp2 with ⟨hp3, hsel⟩
      have := h p hp3 (by simpa using hsel) (by simpa using hcand)
      simp [this]

/-- Sample warm pods for the witness: one not yet Running, one whose
conditional update is lost to another replica, one claimable. -/
def warmPod1 : Pod :=
  { name := "w1", ns := "tenants", labels := [("app", "warm-pool"), ("warm", "true")],
    phase := PodPhase.pending, podIP := "", nodeName := "n1" }

def warmPod2 : Pod :=
  { name := "w2", ns := "tenants", labels := [("app", "warm-pool"), ("warm", "true")],
    phase := PodPhase.running, podIP := "10.3.0.2", nodeName := "n2" }

def warmPod3 : Pod :=
  { name := "w3", ns := "tenants", labels := [("app", "warm-pool"), ("warm", "true")],
    phase := PodPhase.running, podIP := "10.3.0.3", nodeName := "n3" }

/-- The conditional update succeeds only on w3 (another replica won w2). -/
def warmOkSample : Pod → Bool := fun p => p.name = "w3"

/-- Witness for C6: the claim skips the non-Running pod and the pod whose
conditional update failed, and returns the relabeled third pod. -/
theorem warm_claim_spec_witness :
    getWarmPod [warmPod1, warmPod2, warmPod3] warmOkSample =
      some (setLabel warmPod3 "warm" "consuming") := by
  rw [(warm_claim_spec [warmPod1, warmPod2, warmPod3] warmOkSample).2.1]
  rfl

/-- With pairwise-distinct ids, a member is its own point read. -/
theorem getTenant_eq_of_mem {reg : Registry} (huniq : UniqueIds reg)
    {t : TenantRecord} (ht : t ∈ reg) : getTenant reg t.tenantID = some t := by
  unfold getTenant
  cases hf : List.find? (fun r => r.tenantID = t.tenantID) reg with
  | none =>
      exfalso
      have := List.find?_eq_none.mp hf t ht
      simp at this
  | some s =>
      have hs := List.mem_of_find?_eq_some hf
      have hid := List.find?_some hf
      have heq : s = t := huniq.eq_of_mem hs ht (by simpa using hid)
      rw [heq]

/-- All idle-tick actions are demote-compatible. -/
theorem idle_trace_demoteOnly (now : Int) (delOk : String → String → Bool)
    (reg : Registry) :
    ∀ a ∈ (checkIdleTenants now delOk reg).1, isDemoteAct a := by
  intro a ha
  obtain ⟨t, _, hat⟩ := checkIdleTenants_trace_mem ha
  rcases idleStep_actions hat with rfl | rfl
  · trivial
  · exact ⟨rfl, rfl, rfl⟩

/-- The ids an idle tick demotes: the scanned tenants past their own budget
whose pod delete succeeded. -/
theorem idle_demoteTargets (now : Int) (delOk : String → String → Bool) :
    ∀ l : List TenantRecord,
      demoteTargets ((l.map (idleStep now delOk)).flatten) =
        (l.filter (fun t => ¬(now - t.lastActiveAt < effIdleTimeout t) ∧
          delOk t.podName t.ns = true)).map (fun t => t.tenantID) := by
  intro l
  induction l with
  | nil => rfl
  | cons t rest ih =>
      simp only [List.map_cons, List.flatten_cons, demoteTargets_append, ih]
      by_cases hskip : now - t.lastActiveAt < effIdleTimeout t
      · simp [idleStep, hskip, demoteTargets, List.filter_cons, not_le.mpr hskip]
      · by_cases hdel : delOk t.podName t.ns = true
        · simp [idleStep, hskip, hdel, demoteTargets, List.filter_cons,
            not_lt.mp hskip]
        · simp [idleStep, hskip, hdel, demoteTargets, List.filter_cons,
            not_lt.mp hskip]

/-- C4: for every record returned by the idle controller's coarse scan, the
tenant is skipped (no action, record untouched) exactly when
now − last_active_at is below its per-tenant budget, 5 minutes substituted
when the budget is zero; otherwise the pod is deleted with 30-second grace
and the record is then set to Idle with empty pod fields, and when the pod
delete fails the status update is skipped for the iteration, leaving the
record untouched. -/
theorem idle_tick_spec (now : Int) (delOk : String → String → Bool)
    (reg : Registry) (huniq : UniqueIds reg) :
    ∀ t ∈ listIdleTenants reg 300 now,
      ((now - t.lastActiveAt < (if t.idleTimeoutS = 0 then 300 else t.idleTimeoutS)) →
        idleStep now delOk t = [] ∧
        getTenant (checkIdleTenants now delOk reg).2 t.tenantID = some t) ∧
      (¬ now - t.lastActiveAt < (if t.idleTimeoutS = 0 then 300 else t.idleTimeoutS) →
        (delOk t.podName t.ns = true →
          idleStep now delOk t =
            [Action.deletePod t.podName t.ns 30,
             Action.updStatus t.tenantID TenantStatus.idle "" ""] ∧
          getTenant (checkIdleTenants now delOk reg).2 t.tenantID =
            some (demote now t)) ∧
        (delOk t.podName t.ns = false →
          idleStep now delOk t = [Action.deletePod t.podName t.ns 30] ∧
          getTenant (checkIdleTenants now delOk reg).2 t.tenantID = some t)) := by
  intro t ht
  have htreg : t ∈ reg := List.mem_of_mem_filter ht
  have heff : effIdleTimeout t = (if t.idleTimeoutS = 0 then 300 else t.idleTimeoutS) := rfl
  have hreg2 : (checkIdleTenants now delOk reg).2 =
      reg.map (fun r =>
        if r.tenantID ∈ demoteTargets (checkIdleTenants now delOk reg).1 then
          demote now r else r) :=
    applyActions_demoteOnly now _ reg (idle_trace_demoteOnly now delOk reg)
  have hget : getTenant (checkIdleTenants now delOk reg).2 t.tenantID =
      (getTenant reg t.tenantID).map (fun r =>
        if r.tenantID ∈ demoteTargets (checkIdleTenants now delOk reg).1 then
          demote now r else r) := by
    rw [hreg2]
    exact getTenant_map_preserveID _
      (fun r => by by_cases h : r.tenantID ∈
          demoteTargets (checkIdleTenants now delOk reg).1 <;> simp [h, demote]) reg _
  have hgt : getTenant reg t.tenantID = some t := getTenant_eq_of_mem huniq htreg
  have htargets : demoteTargets (checkIdleTenants now delOk reg).1 =
      ((listIdleTenants reg 300 now).filter (fun u =>
        ¬(now - u.lastActiveAt < effIdleTimeout u) ∧
          delOk u.podName u.ns = true)).map (fun u => u.tenantID) :=
    idle_demoteTargets now delOk _
  have hmem_iff : t.tenantID ∈ demoteTargets (checkIdleTenants now delOk reg).1 ↔
      (¬(now - t.lastActiveAt < effIdleTimeout t) ∧ delOk t.podName t.ns = true) := by
    rw [htargets]
    constructor
    · intro h
      rcases List.mem_map.mp h with ⟨u, hu, huid⟩
      rcases List.mem_filter.mp hu with ⟨huscan, hucond⟩
      have hue : u = t :=
        huniq.eq_of_mem (List.mem_of_mem_filter huscan) htreg huid
      subst hue
      simpa using hucond
    · intro h
      exact List.mem_map.mpr ⟨t, List.mem_filter.mpr ⟨ht, by simpa using h⟩, rfl⟩
  refine ⟨?_, ?_⟩
  · intro hskip
    rw [← heff] at hskip
    constructor
    · simp [idleStep, hskip]
    · rw [hget, hgt]
      have hnot : t.tenantID ∉ demoteTargets (checkIdleTenants now delOk reg).1 := by
        rw [hmem_iff]
        intro hcontra
        exact hcontra.1 hskip
      simp [hnot]
  · intro hskip
    rw [← heff] at hskip
    constructor
    · intro hdel
      constructor
      · simp [idleStep, hskip, hdel]
      · rw [hget, hgt]
        have hmem : t.tenantID ∈ demoteTargets (checkIdleTenants now delOk reg).1 :=
          hmem_iff.mpr ⟨hskip, hdel⟩
        simp [hmem]
    · intro hdel
      constructor
      · simp [idleStep, hskip, hdel]
      · rw [hget, hgt]
        have hnot : t.tenantID ∉ demoteTargets (checkIdleTenants now delOk reg).1 := by
          rw [hmem_iff]
          intro hcontra
          rw [hdel] at hcontra
          exact Bool.false_ne_true hcontra.2
        simp [hnot]

/-- A stale Running record used by the idle witness: last active at time 0,
budget 300, observed at time 1000. -/
def staleRunning : TenantRecord :=
  { tenantID := "erin", status := TenantStatus.running,
    podName := "zeroclaw-erin", podIP := "10.4.0.1", ns := "tenants",
    lastActiveAt := 0, idleTimeoutS := 300 }

/-- Witness for C4: the stale tenant is scanned, its pod is deleted with
30-second grace, and its record is demoted. -/
theorem idle_tick_spec_witness :
    idleStep 1000 (fun _ _ => true) staleRunning =
      [Action.deletePod "zeroclaw-erin" "tenants" 30,
       Action.updStatus "erin" TenantStatus.idle "" ""] ∧
    getTenant (checkIdleTenants 1000 (fun _ _ => true) [staleRunning]).2 "erin" =
      some (demote 1000 staleRunning) := by
  have h := idle_tick_spec 1000 (fun _ _ => true) [staleRunning]
    (by simp [UniqueIds]) staleRunning (by decide)
  have h2 := (h.2 (by decide)).1 rfl
  exact ⟨h2.1, h2.2⟩

/-- All reconciler actions are demote-compatible. -/
theorem reconcile_trace_demoteOnly (now : Int) (podExists : String → Option Bool)
    (reg : Registry) :
    ∀ a ∈ (reconcile now podExists reg).1, isDemoteAct a := by
  intro a ha
  obtain ⟨t, _, hat⟩ := reconcile_trace_mem ha
  rcases reconcileStep_actions hat with rfl | rfl
  · exact ⟨rfl, rfl, rfl⟩
  · trivial

/-- The ids a reconcile pass demotes: the scanned Running tenants whose
derived pod is absent. -/
theorem reconcile_demoteTargets (podExists : String → Option Bool) :
    ∀ l : List TenantRecord,
      demoteTargets ((l.map (reconcileStep podExists)).flatten) =
        (l.filter (fun t => podExists (podNameOf t.tenantID) = some false)).map
          (fun t => t.tenantID) := by
  intro l
  induction l with
  | nil => rfl
  | cons t rest ih =>
      simp only [List.map_cons, List.flatten_cons, demoteTargets_append, ih]
      cases hpe : podExists (podNameOf t.tenantID) with
      | none => simp [reconcileStep, hpe, demoteTargets, List.filter_cons]
      | some b =>
          cases b with
          | true => simp [reconcileStep, hpe, demoteTargets, List.filter_cons]
          | false => simp [reconcileStep, hpe, demoteTargets, List.filter_cons]

/-- Membership of a cache-delete action in one reconcile step. -/
theorem reconcileStep_delCache_iff (podExists : String → Option Bool)
    (t : TenantRecord) (k : String) :
    Action.delCacheKey k ∈ reconcileStep podExists t ↔
      podExists (podNameOf t.tenantID) = some false ∧ k = cacheKeyOf t.tenantID := by
  cases hpe : podExists (podNameOf t.tenantID) with
  | none => simp [reconcileStep, hpe]
  | some b =>
      cases b with
      | true => simp [reconcileStep, hpe]
      | false =>
          simp [reconcileStep, hpe, eq_comm]

/-- C5: a reconcile pass demotes to Idle with empty pod fields exactly the
Running records whose derived pod is absent from the cluster (deleting
their address-cache entries) and changes nothing else; hence it is
idempotent — a second pass over the resulting registry with the unchanged
cluster leaves it untouched. -/
theorem reconcile_pass_spec (now now2 : Int) (podExists : String → Option Bool)
    (reg : Registry) (huniq : UniqueIds reg) :
    ((reconcile now podExists reg).2 =
      reg.map (fun r =>
        if r.status = TenantStatus.running ∧
            podExists (podNameOf r.tenantID) = some false then
          demote now r else r)) ∧
    (∀ k, Action.delCacheKey k ∈ (reconcile now podExists reg).1 ↔
      ∃ r ∈ reg, r.status = TenantStatus.running ∧
        podExists (podNameOf r.tenantID) = some false ∧
        k = cacheKeyOf r.tenantID) ∧
    ((reconcile now2 podExists ((reconcile now podExists reg).2)).2 =
      (reconcile now podExists reg).2) := by
  have hchar : ∀ (n : Int) (rg : Registry), UniqueIds rg →
      (reconcile n podExists rg).2 =
        rg.map (fun r =>
          if r.status = TenantStatus.running ∧
              podExists (podNameOf r.tenantID) = some false then
            demote n r else r) := by
    intro n rg hu
    have h1 : (reconcile n podExists rg).2 =
        rg.map (fun r =>
          if r.tenantID ∈ demoteTargets (reconcile n podExists rg).1 then
            demote n r else r) :=
      applyActions_demoteOnly n _ rg (reconcile_trace_demoteOnly n podExists rg)
    have htarg : demoteTargets (reconcile n podExists rg).1 =
        ((listByStatus TenantStatus.running rg).filter (fun t =>
          podExists (podNameOf t.tenantID) = some false)).map (fun t => t.tenantID) :=
      reconcile_demoteTargets podExists _
    rw [h1]
    apply List.map_congr_left
    intro r hr
    by_cases hcond : r.status = TenantStatus.running ∧
        podExists (podNameOf r.tenantID) = some false
    · have hmem : r.tenantID ∈ demoteTargets (reconcile n podExists rg).1 := by
        rw [htarg]
        exact List.mem_map.mpr ⟨r, List.mem_filter.mpr
          ⟨List.mem_filter.mpr ⟨hr, by simpa using hcond.1⟩, by simpa using hcond.2⟩, rfl⟩
      simp [hmem, hcond]
    · have hnot : r.tenantID ∉ demoteTargets (reconcile n podExists rg).1 := by
        rw [htarg]
        intro h
        rcases List.mem_map.mp h with ⟨u, humem, huid⟩
        rcases List.mem_filter.mp humem with ⟨huscan, hucond⟩
        rcases List.mem_filter.mp huscan with ⟨hureg, hurun⟩
        have hue : u = r := hu.eq_of_mem hureg hr huid
        subst hue
        exact hcond ⟨by simpa using hurun, by simpa using hucond⟩
      simp [hnot, hcond]
  have hcharA := hchar now reg huniq
  have hfid : ∀ r : TenantRecord,
      ((if r.status = TenantStatus.running ∧
          podExists (podNameOf r.tenantID) = some false then
        demote now r else r)).tenantID = r.tenantID := by
    intro r
    by_cases hcond : r.status = TenantStatus.running ∧
        podExists (podNameOf r.tenantID) = some false <;> simp [hcond, demote]
  have huniq1 : UniqueIds ((reconcile now podExists reg).2) := by
    rw [hcharA]
    unfold UniqueIds at huniq ⊢
    rw [List.pairwise_map]
    refine huniq.imp ?_
    intro a b hab
    rw [hfid a, hfid b]
    exact hab
  refine ⟨hcharA, ?_, ?_⟩
  · intro k
    constructor
    · intro hk
      obtain ⟨t, ht, hstep⟩ := reconcile_trace_mem hk
      rcases (reconcileStep_delCache_iff podExists t k).mp hstep with ⟨habs, hkey⟩
      rcases List.mem_filter.mp ht with ⟨htreg, htrun⟩
      exact ⟨t, htreg, by simpa using htrun, habs, hkey⟩
    · rintro ⟨r, hr, hrun, habs, rfl⟩
      simp only [reconcile, List.mem_flatten, List.mem_map]
      refine ⟨reconcileStep podExists r,
        ⟨r, List.mem_filter.mpr ⟨hr, by simpa using hrun⟩, rfl⟩, ?_⟩
      exact (reconcileStep_delCache_iff podExists r _).mpr ⟨habs, rfl⟩
  · have h2 := hchar now2 _ huniq1
    rw [h2]
    have hid : ∀ x ∈ (reconcile now podExists reg).2,
        (if x.status = TenantStatus.running ∧
            podExists (podNameOf x.tenantID) = some false then
          demote now2 x else x) = x := by
      intro x hx
      rw [hcharA] at hx
      rcases List.mem_map.mp hx with ⟨r, hr, rfl⟩
      by_cases hcond : r.status = TenantStatus.running ∧
          podExists (podNameOf r.tenantID) = some false
      · simp [hcond, demote]
      · simp [hcond]
    rw [List.map_congr_left hid]
    simp

/-- Two Running records for the reconcile witness: one whose derived pod
has vanished, one whose pod is present. -/
def recGone : TenantRecord :=
  { tenantID := "gone", status := TenantStatus.running,
    podName := "zeroclaw-gone", podIP := "10.5.0.1", ns := "tenants" }

def recKept : TenantRecord :=
  { tenantID := "kept", status := TenantStatus.running,
    podName := "zeroclaw-kept", podIP := "10.5.0.2", ns := "tenants" }

/-- The cluster for the reconcile witness: only zeroclaw-kept exists. -/
def clusterSample : String → Option Bool := fun n => some (n = "zeroclaw-kept")

/-- Witness for C5: the vanished tenant is demoted and its cache entry
deleted, the intact tenant is untouched, and a second pass is a no-op. -/
theorem reconcile_pass_spec_witness :
    (reconcile 50 clusterSample [recGone, recKept]).2 =
      [demote 50 recGone, recKept] ∧
    Action.delCacheKey "router:endpoint:gone" ∈
      (reconcile 50 clusterSample [recGone, recKept]).1 ∧
    (reconcile 60 clusterSample ((reconcile 50 clusterSample [recGone, recKept]).2)).2 =
      (reconcile 50 clusterSample [recGone, recKept]).2 := by
  have h := reconcile_pass_spec 50 60 clusterSample [recGone, recKept]
    (by unfold UniqueIds; decide)
  refine ⟨?_, ?_, h.2.2⟩
  · rw [h.1]
    rfl
  · exact (h.2.1 "router:endpoint:gone").mpr
      ⟨recGone, by decide, rfl, by decide, rfl⟩

/-- Demote-compatible actions are I1-compatible writes. -/
theorem isDemoteAct_regWriteOK {a : Action} (h : isDemoteAct a) : regWriteOK a := by
  cases a with
  | updStatus tid2 status podName podIP =>
      obtain ⟨hst, hpn, hpi⟩ := h
      subst hst
      refine ⟨fun hr => ?_, fun _ => ⟨hpn, hpi⟩⟩
      cases hr
  | createRecord rec => cases h
  | touchActivity tid2 => cases h
  | deleteRecord tid2 => cases h
  | acquireLock tid2 ttlS2 => trivial
  | releaseLock tid2 => trivial
  | createPVC tid2 ns => trivial
  | createPod tid2 ns nodeName => trivial
  | deletePod name ns graceS => trivial
  | delCacheKey key => trivial

/-- The CreateTenant handler only ever writes the Idle record it builds. -/
theorem createTenantHandler_trace_spec (body : Option CreateReq) (avail : Bool)
    (now : Int) (cfgNs : String) (reg : Registry) :
    ∀ a ∈ (createTenantHandler body avail now cfgNs reg).2.2.2, regWriteOK a := by
  intro a ha
  cases body with
  | none => simp [createTenantHandler] at ha
  | some req =>
      by_cases hid : req.tenantID = ""
      · simp [createTenantHandler, hid] at ha
      · simp only [createTenantHandler] at ha
        rw [if_neg hid] at ha
        have hcoupled : recordCoupled (newTenantRecord req now cfgNs) := by
          refine ⟨fun hr => ?_, fun _ => ⟨rfl, rfl⟩⟩
          cases hr
        cases hc : regCreate avail reg (newTenantRecord req now cfgNs) with
        | error e =>
            simp only [hc, List.mem_cons, List.not_mem_nil, or_false] at ha
            subst ha
            exact hcoupled
        | ok reg2 =>
            simp only [hc, List.mem_cons, List.not_mem_nil, or_false] at ha
            subst ha
            exact hcoupled

/-- C1: every registry write the system performs preserves the address
coupling invariant I1 — the wake pipeline's only status merge is the
Running commit carrying the derived (non-empty) pod name and the non-empty
address of the pod WaitPodReady reported ready; the idle controller's and
the reconciler's only status merges are demotions to Idle with both pod
fields empty; the records created by POST /tenants and by wake
auto-creation satisfy I1; and applying any trace of such writes to a
registry satisfying I1 yields a registry satisfying I1. -/
theorem registry_writes_coupled :
    (∀ (ttlS : Nat) (env : WakeEnv) (reg : Registry) (cfgNs tenantID : String),
      ∀ a ∈ (wakeOrGet ttlS env reg cfgNs tenantID).2, regWriteOK a) ∧
    (∀ (ttlS : Nat) (env : WakeEnv) (reg : Registry) (cfgNs tenantID : String)
        (tid2 : String) (st : TenantStatus) (pn pip : String),
      Action.updStatus tid2 st pn pip ∈ (wakeOrGet ttlS env reg cfgNs tenantID).2 →
      st = TenantStatus.running ∧ pn = podNameOf tenantID ∧
        waitPodReady env.readyObs = some pip ∧ pip ≠ "") ∧
    (∀ (now : Int) (delOk : String → String → Bool) (reg : Registry),
      ∀ a ∈ (checkIdleTenants now delOk reg).1, regWriteOK a) ∧
    (∀ (now : Int) (delOk : String → String → Bool) (reg : Registry)
        (tid2 : String) (st : TenantStatus) (pn pip : String),
      Action.updStatus tid2 st pn pip ∈ (checkIdleTenants now delOk reg).1 →
      st = TenantStatus.idle ∧ pn = "" ∧ pip = "") ∧
    (∀ (now : Int) (podExists : String → Option Bool) (reg : Registry),
      ∀ a ∈ (reconcile now podExists reg).1, regWriteOK a) ∧
    (∀ (now : Int) (podExists : String → Option Bool) (reg : Registry)
        (tid2 : String) (st : TenantStatus) (pn pip : String),
      Action.updStatus tid2 st pn pip ∈ (reconcile now podExists reg).1 →
      st = TenantStatus.idle ∧ pn = "" ∧ pip = "") ∧
    (∀ (body : Option CreateReq) (avail : Bool) (now : Int) (cfgNs : String)
        (reg : Registry),
      ∀ a ∈ (createTenantHandler body avail now cfgNs reg).2.2.2, regWriteOK a) ∧
    (∀ (now : Int) (acts : List Action) (reg : Registry),
      allCoupled reg → (∀ a ∈ acts, regWriteOK a) →
        allCoupled (applyActions now acts reg)) := by
  refine ⟨?_, ?_, ?_, ?_, ?_, ?_, ?_, ?_⟩
  · intro ttlS env reg cfgNs tenantID a ha
    exact wakeActOK_regWriteOK (wakeOrGet_trace_spec ttlS env reg cfgNs tenantID a ha)
  · intro ttlS env reg cfgNs tenantID tid2 st pn pip hmem
    have h := wakeOrGet_trace_spec ttlS env reg cfgNs tenantID _ hmem
    obtain ⟨_, hst, hpn, hready⟩ := h
    exact ⟨hst, hpn, hready, waitPodReady_ne_empty hready⟩
  · intro now delOk reg a ha
    exact isDemoteAct_regWriteOK (idle_trace_demoteOnly now delOk reg a ha)
  · intro now delOk reg tid2 st pn pip hmem
    exact idle_trace_demoteOnly now delOk reg _ hmem
  · intro now podExists reg a ha
    exact isDemoteAct_regWriteOK (reconcile_trace_demoteOnly now podExists reg a ha)
  · intro now podExists reg tid2 st pn pip hmem
    exact reconcile_trace_demoteOnly now podExists reg _ hmem
  · exact createTenantHandler_trace_spec
  · intro now acts reg hreg hok
    exact applyActions_coupled now hreg hok

/-- Witness for C1: a concrete demotion write applied to a concrete
I1-satisfying registry yields an I1-satisfying registry. -/
theorem registry_writes_coupled_witness :
    allCoupled (applyActions 3
      [Action.updStatus "alice" TenantStatus.idle "" ""] [sampleRunning]) :=
  registry_writes_coupled.2.2.2.2.2.2.2 3
    [Action.updStatus "alice" TenantStatus.idle "" ""] [sampleRunning]
    (by intro r hr
        simp only [List.mem_singleton] at hr
        subst hr
        decide)
    (by decide)

end AgenticTenancy
